import Mathlib

/-!
Verification of the streaming SEO investigation pipeline of the
`aioptimizer` backend (`src/backend/services/investigation_service.py`,
`src/backend/services/optimization_service.py`,
`src/backend/services/page_fetcher_service.py`).

The two service files are near-duplicates of one pipeline.  External
collaborators (SerpAPI search, the language-model agent runner, HTTP
fetching, HTML parsing, JSON/SSE serialization) are modelled as
oracles/outcomes passed in as arguments or as structured values;
everything the repository itself computes is embedded as executable
Lean functions translated from the Python source.  Python strings are
modelled over their code-point lists (`List Char`), which matches
Python string indexing and slicing semantics.
-/

deriving instance DecidableEq for Except

namespace AIOpt

/-! ## String helpers modelling Python string primitives -/

/-- Models the Python expression `sub in s` on strings: substring
containment over code points (`"" in s` is `True`). -/
def strContains (s sub : String) : Bool :=
  decide (sub.toList <:+: s.toList)

/-- Python `str.lower()`, at the ASCII boundary (`Char.toLower` lowers
`A`-`Z`; full Unicode case folding is outside the embedding). -/
def pyLower (cs : List Char) : List Char :=
  cs.map Char.toLower

/-- Whitespace set of Python `str.strip()` at the ASCII boundary. -/
def isPyWhitespace (c : Char) : Bool :=
  c = ' ' || c = '\t' || c = '\n' || c = '\r' || c = '\x0b' || c = '\x0c'

/-- Python `str.strip()` with no argument: drop leading and trailing
whitespace. -/
def pyStrip (cs : List Char) : List Char :=
  ((cs.dropWhile isPyWhitespace).reverse.dropWhile isPyWhitespace).reverse

/-- Python `s.lstrip(chars)`: drop leading characters that are members
of the given character set. -/
def pyLstrip (stripSet : List Char) (cs : List Char) : List Char :=
  cs.dropWhile (fun c => stripSet.contains c)

/-- Python `s.split(sep)` for a single-character separator: splits at
every occurrence, keeping empty pieces (`"".split(c) == [""]`). -/
def pySplitOn (sep : Char) : List Char → List (List Char)
  | [] => [[]]
  | c :: cs =>
    match pySplitOn sep cs with
    | [] => if c = sep then [[], []] else [[c]]
    | g :: gs => if c = sep then [] :: g :: gs else (c :: g) :: gs

/-! ## Recommendation parser (`_parse_recommendations`)

Translated from `InvestigationService._parse_recommendations`
(investigation_service.py lines 352-366) and
`OptimizationService._parse_recommendations`
(optimization_service.py lines 217-231).  The two copies are identical
except for the bullet literal: the optimization variant uses the bullet
character U+2022, while the investigation variant contains the mojibake
three-character sequence U+00E2 U+20AC U+00A2 (the UTF-8 bytes of the
bullet mis-decoded) both in the `startswith` test and in the `lstrip`
character set. -/

/-- Python: `line and (line[0].isdigit() or line.startswith('-') or
line.startswith(bullet))`, for an already-trimmed line. -/
def isRecLine (bullet : List Char) (l : List Char) : Bool :=
  !l.isEmpty && ((l.headD 'A').isDigit || l.take 1 = ['-'] || bullet.isPrefixOf l)

/-- The loop body of `_parse_recommendations`: for each line, trim it,
keep it when it is recognized as a numbered/bulleted item and is
non-empty after stripping the leading enumerator/bullet characters
followed by a final trim. -/
def recItems (bullet : List Char) (stripSet : List Char)
    (lines : List (List Char)) : List (List Char) :=
  lines.filterMap (fun line =>
    let l := pyStrip line
    if isRecLine bullet l then
      let cleaned := pyStrip (pyLstrip stripSet l)
      if cleaned.isEmpty then none else some cleaned
    else none)

/-- `_parse_recommendations`, parameterized by the bullet literal and
the `lstrip` character set of the variant.  Returns the accumulated
items, or `[text]` (the argument, unmodified) when no item was kept. -/
def parseRecsWith (bullet : List Char) (stripSet : List Char)
    (text : String) : List String :=
  let lines := pySplitOn '\n' (pyStrip text.toList)
  let recommendations := recItems bullet stripSet lines
  if recommendations.isEmpty then [text] else recommendations.map String.mk

/-- `InvestigationService._parse_recommendations`.  The source file
holds the mojibake sequence "â€¢" where a bullet was intended. -/
def parse_recommendations_inv (text : String) : List String :=
  parseRecsWith "â€¢".toList "0123456789.-â€¢) ".toList text

/-- `OptimizationService._parse_recommendations`, with the genuine
bullet character U+2022. -/
def parse_recommendations_opt (text : String) : List String :=
  parseRecsWith "•".toList "0123456789.-•) ".toList text

/-! ## Ranking analysis (`analyze_rankings`)

Translated from `InvestigationService.analyze_rankings`
(investigation_service.py lines 179-212); the copy in
`OptimizationService.analyze_rankings` (optimization_service.py lines
72-105) is character-identical, so one embedding covers both.  The
SerpAPI call `self.search_google(keyword, location, language)` is an
external collaborator, passed in as an oracle from keyword to either a
raised exception message or a raw result payload (location and language
are fixed for the whole run and are absorbed into the oracle). -/

/-- One entry of the provider's `organic_results`; `analyze_rankings`
only ever reads its `link` key, which may be absent. -/
structure OrganicResult where
  link : Option String
deriving DecidableEq

/-- The raw search payload; `results.get("organic_results", [])` is
modelled by a total field where an absent key is the empty list. -/
structure SearchResults where
  organic_results : List OrganicResult
deriving DecidableEq

/-- Python `result.get("link", "")`. -/
def entryLink (r : OrganicResult) : String :=
  r.link.getD ""

/-- Python `url.lower() in result_url.lower()`. -/
def linkMatches (url : String) (r : OrganicResult) : Bool :=
  decide (pyLower url.toList <:+: pyLower (entryLink r).toList)

/-- The rank-finding loop: `for idx, result in
enumerate(organic_results[:20], start=1): ... break`, started at a
given 1-based index. -/
def findRankFrom (url : String) (idx : Nat) : List OrganicResult → Option Nat
  | [] => none
  | r :: rs => if linkMatches url r then some idx else findRankFrom url (idx + 1) rs

/-- The rank assigned to one keyword from its organic results. -/
def rankOf (url : String) (organic : List OrganicResult) : Option Nat :=
  findRankFrom url 1 (organic.take 20)

/-- The competitor-collection loop body over `organic_results[:5]`:
`if competitor_url and url.lower() not in competitor_url.lower():
all_competitors.add(competitor_url)`.  The Python `set` is modelled as
an insertion-ordered duplicate-free list. -/
def addCompetitors (url : String) (comps : List String) :
    List OrganicResult → List String
  | [] => comps
  | r :: rs =>
    let u := entryLink r
    let comps' :=
      if !u.isEmpty && !linkMatches url r then
        (if comps.contains u then comps else comps ++ [u])
      else comps
    addCompetitors url comps' rs

/-- Python `dict` assignment `d[k] = v`: replace in place when the key
is present, append otherwise (insertion order preserved). -/
def dictInsert (d : List (String × Option Nat)) (k : String) (v : Option Nat) :
    List (String × Option Nat) :=
  match d with
  | [] => [(k, v)]
  | (k', v') :: rest =>
    if k' = k then (k, v) :: rest else (k', v') :: dictInsert rest k v

/-- Python `dict` lookup `d[k]` (as a partial read `d.get(k)`). -/
def dictLookup (d : List (String × Option Nat)) (k : String) :
    Option (Option Nat) :=
  match d with
  | [] => none
  | (k', v') :: rest => if k' = k then some v' else dictLookup rest k

/-- The local variables of `analyze_rankings` threaded through its
keyword loop; `lastResults` is the loop variable `results`, which is
unbound (`none`) until the first iteration assigns it. -/
structure LoopState where
  rankings : List (String × Option Nat)
  competitors : List String
  lastResults : Option SearchResults
deriving DecidableEq

/-- How `analyze_rankings` can fail: a search call raising (propagated
to the pipeline boundary), or the `NameError` from reading the loop
variable `results` after zero iterations. -/
inductive AnalyzeError
  | searchFailure (msg : String)
  | unboundResults
deriving DecidableEq

/-- Python `str(e)` for the two failure kinds; the `NameError` renders
as `name 'results' is not defined`. -/
def AnalyzeError.toMessage : AnalyzeError → String
  | .searchFailure m => m
  | .unboundResults => "name \x27results\x27 is not defined"

/-- One iteration of the `for keyword in keywords` loop. -/
def analyzeStep (url : String) (st : LoopState) (kw : String)
    (res : SearchResults) : LoopState where
  rankings := dictInsert st.rankings kw (rankOf url res.organic_results)
  competitors := addCompetitors url st.competitors (res.organic_results.take 5)
  lastResults := some res

/-- The keyword loop of `analyze_rankings`: each iteration awaits
`search_google` (failure propagates) and updates the local state. -/
def analyzeLoop (search : String → Except String SearchResults)
    (url : String) : List String → LoopState → Except AnalyzeError LoopState
  | [], st => .ok st
  | kw :: rest, st =>
    match search kw with
    | .error e => .error (.searchFailure e)
    | .ok res => analyzeLoop search url rest (analyzeStep url st kw res)

/-- The return value of `analyze_rankings`. -/
structure AnalysisData where
  rankings : List (String × Option Nat)
  competitors : List String
  search_results : SearchResults
deriving DecidableEq

/-- `analyze_rankings(url, keywords, location, language)`: run the
keyword loop, then build the result dictionary; reading `results` there
raises `NameError` when the loop ran zero iterations. -/
def analyze_rankings (search : String → Except String SearchResults)
    (url : String) (keywords : List String) : Except AnalyzeError AnalysisData :=
  match analyzeLoop search url keywords ⟨[], [], none⟩ with
  | .error e => .error e
  | .ok st =>
    match st.lastResults with
    | none => .error .unboundResults
    | some res => .ok ⟨st.rankings, st.competitors.take 10, res⟩

/-- A concrete organic-results list used by witnesses: the target
`example.com` appears (case-insensitively) at position 3. -/
def exampleOrganic : List OrganicResult :=
  [⟨some "https://a.com/x"⟩, ⟨some "https://b.com/y"⟩,
   ⟨some "https://EXAMPLE.com/page"⟩, ⟨none⟩, ⟨some "https://a.com/x"⟩,
   ⟨some "https://c.com/z"⟩]

/-- A concrete search oracle used by witnesses: it answers the keyword
"widgets" with `exampleOrganic` and raises on any other keyword. -/
def exampleSearch : String → Except String SearchResults := fun kw =>
  if kw = "widgets" then .ok ⟨exampleOrganic⟩ else .error "boom"

/-! ## The streaming pipelines (`investigate` / `optimize`)

Translated from `InvestigationService.investigate`
(investigation_service.py lines 214-350) and
`OptimizationService.optimize` (optimization_service.py lines 107-215).
Each is an async generator yielding SSE-framed JSON events; we model
the produced event sequence as a list of structured events
(`_format_sse` / `json.dumps` serialization is the transport boundary).
The awaited external steps (`asyncio.sleep`, the agent `Runner.run`
calls) are oracles: their outcomes are fields of `RunEnv`, consumed in
pipeline order, and an exception anywhere in the body is caught by the
single outermost `except`, which yields one final `failed` event. -/

/-- The `status` field of an emitted event. -/
inductive Status
  | pending
  | analyzing
  | optimizing
  | completed
  | failed
deriving DecidableEq

/-- The optional `data` field of an emitted event. -/
inductive EventData
  | interim (rankings : List (String × Option Nat)) (competitors : List String)
  | final (id : String) (url : String) (keywords : List String)
      (location : String) (current_rankings : List (String × Option Nat))
      (competitors : List String) (recommendations : List String)
      (analysis : String) (created_at : String) (completed_at : String)
deriving DecidableEq

/-- One progress event of a pipeline run. -/
structure Event where
  status : Status
  message : String
  progress : Nat
  data : Option EventData := none
deriving DecidableEq

/-- Terminal events are those with status `completed` or `failed`. -/
def Event.isTerminal (e : Event) : Bool :=
  e.status = Status.completed || e.status = Status.failed

/-- The event yielded by the outermost `except` handler (identical in
both service variants). -/
def failedEvent (e : String) : Event :=
  ⟨.failed, "Optimization failed: " ++ e, 0, none⟩

/-- Outcomes of the external awaited steps of one run, in pipeline
order, plus the run-scoped fresh values (`uuid4`, `datetime.utcnow`).
`search` backs `analyze_rankings`; the three `Runner.run` results carry
each agent's `final_output` text. -/
structure RunEnv where
  search : String → Except String SearchResults
  sleepResult : Except String Unit
  investResult : Except String String
  analysisResult : Except String String
  optResult : Except String String
  taskId : String
  createdAt : String
  completedAt : String

/-- The event sequence produced by one `InvestigationService.investigate`
run. -/
def investigate (env : RunEnv) (url : String) (keywords : List String)
    (location : String) : List Event :=
  ⟨.pending, "Starting SEO analysis...", 0, none⟩ ::
  match env.sleepResult with
  | .error e => [failedEvent e]
  | .ok _ =>
    ⟨.analyzing, "Analyzing rankings for " ++ toString keywords.length ++
      " keywords...", 20, none⟩ ::
    match analyze_rankings env.search url keywords with
    | .error e => [failedEvent e.toMessage]
    | .ok ad =>
      ⟨.analyzing, "Rankings analyzed. Processing competitor data...", 40,
        some (.interim ad.rankings ad.competitors)⟩ ::
      ⟨.analyzing, "Agent investigating target URL and competitors...", 50,
        none⟩ ::
      match env.investResult with
      | .error e => [failedEvent e]
      | .ok _ =>
        ⟨.analyzing, "Running SEO analysis...", 70, none⟩ ::
        match env.analysisResult with
        | .error e => [failedEvent e]
        | .ok analysisOut =>
          ⟨.optimizing, "Generating optimization recommendations...", 85,
            none⟩ ::
          match env.optResult with
          | .error e => [failedEvent e]
          | .ok optOut =>
            [⟨.completed, "Optimization complete!", 100,
              some (.final env.taskId url keywords location ad.rankings
                ad.competitors (parse_recommendations_inv optOut) analysisOut
                env.createdAt env.completedAt)⟩]

/-- The event sequence produced by one `OptimizationService.optimize`
run (no investigation-agent stage; progress 0/20/40/60/80/100). -/
def optimize (env : RunEnv) (url : String) (keywords : List String)
    (location : String) : List Event :=
  ⟨.pending, "Starting SEO analysis...", 0, none⟩ ::
  match env.sleepResult with
  | .error e => [failedEvent e]
  | .ok _ =>
    ⟨.analyzing, "Analyzing rankings for " ++ toString keywords.length ++
      " keywords...", 20, none⟩ ::
    match analyze_rankings env.search url keywords with
    | .error e => [failedEvent e.toMessage]
    | .ok ad =>
      ⟨.analyzing, "Rankings analyzed. Processing competitor data...", 40,
        some (.interim ad.rankings ad.competitors)⟩ ::
      ⟨.analyzing, "Running AI analysis...", 60, none⟩ ::
      match env.analysisResult with
      | .error e => [failedEvent e]
      | .ok analysisOut =>
        ⟨.optimizing, "Generating optimization recommendations...", 80,
          none⟩ ::
        match env.optResult with
        | .error e => [failedEvent e]
        | .ok optOut =>
          [⟨.completed, "Optimization complete!", 100,
            some (.final env.taskId url keywords location ad.rankings
              ad.competitors (parse_recommendations_opt optOut) analysisOut
              env.createdAt env.completedAt)⟩]

/-- The description of the first step failure an `investigate` run
encounters, in pipeline order (`none` when every step succeeds). -/
def firstFailureInv (env : RunEnv) (url : String) (keywords : List String) :
    Option String :=
  match env.sleepResult with
  | .error e => some e
  | .ok _ =>
    match analyze_rankings env.search url keywords with
    | .error e => some e.toMessage
    | .ok _ =>
      match env.investResult with
      | .error e => some e
      | .ok _ =>
        match env.analysisResult with
        | .error e => some e
        | .ok _ =>
          match env.optResult with
          | .error e => some e
          | .ok _ => none

/-- The description of the first step failure an `optimize` run
encounters, in pipeline order (`none` when every step succeeds). -/
def firstFailureOpt (env : RunEnv) (url : String) (keywords : List String) :
    Option String :=
  match env.sleepResult with
  | .error e => some e
  | .ok _ =>
    match analyze_rankings env.search url keywords with
    | .error e => some e.toMessage
    | .ok _ =>
      match env.analysisResult with
      | .error e => some e
      | .ok _ =>
        match env.optResult with
        | .error e => some e
        | .ok _ => none

/-! ## Content-fetch tools (`fetch_url_content` / `fetch_page_content`)

Translated from the tool closure `fetch_url_content` in
`InvestigationService._setup_agents` (investigation_service.py lines
59-105) and the tool closure `fetch_page_content` in
`PageFetcherService._setup_agent` (page_fetcher_service.py lines
16-53).  The whole fallible prefix of each tool body — `requests.get`,
`raise_for_status`, `BeautifulSoup` construction, tag removal and
`get_text()` — is the external boundary, modelled as a `FetchOutcome`:
either the string of the raised exception (connection error, timeout,
non-success HTTP status, parse error, ...) or the extracted page data.
The tool's own whitespace cleanup, truncation, fallback titles and the
shape of the returned payload are embedded; `json.dumps` serialization
of the returned dictionary is the stdlib boundary, so the first tool's
return value is modelled as the structured JSON payload itself. -/

/-- A JSON value as produced by the tools (only the shapes they emit). -/
inductive Json
  | null
  | str (s : String)
  | num (n : Nat)
  | obj (fields : List (String × Json))

/-- What the fallible fetch prefix of a tool body hands to the rest of
the tool: `text` is `soup.get_text()`; `titleTag` is the `<title>` tag
(`none` when absent) with its `.string` (which itself may be `None`);
`metaDescContent` likewise for the description meta tag and its
`content` attribute. -/
structure PageData where
  text : String
  titleTag : Option (Option String)
  metaDescContent : Option (Option String)
deriving DecidableEq

/-- Outcome of the fallible fetch prefix: any raised exception, caught
by the tool's `except Exception as e`, or the extracted page data. -/
inductive FetchOutcome
  | failure (excMsg : String)
  | success (page : PageData)
deriving DecidableEq

/-- Python `s.split("  ")` (two-space separator). -/
def splitDoubleSpace : List Char → List (List Char)
  | [] => [[]]
  | [c] => [[c]]
  | c1 :: c2 :: cs =>
    if c1 = ' ' && c2 = ' ' then [] :: splitDoubleSpace cs
    else
      match splitDoubleSpace (c2 :: cs) with
      | [] => [[c1]]
      | g :: gs => (c1 :: g) :: gs

/-- The shared whitespace cleanup of both tools:
`lines = (line.strip() for line in text.splitlines())`,
`chunks = (phrase.strip() for line in lines for phrase in line.split("  "))`,
`sep.join(chunk for chunk in chunks if chunk)`
(`splitlines` modelled at the ASCII-newline boundary). -/
def cleanJoin (sep : List Char) (text : String) : String :=
  let lines := (pySplitOn '\n' text.toList).map pyStrip
  let chunks := (lines.map (fun line => (splitDoubleSpace line).map pyStrip)).flatten
  String.mk (List.intercalate sep (chunks.filter (fun c => !c.isEmpty)))

/-- A Python value that is a string or `None`, as a JSON value. -/
def jsonOfPyOptStr : Option String → Json
  | none => .null
  | some s => .str s

/-- The `fetch_url_content` agent tool of `InvestigationService`: on
any exception, the JSON payload `{"error": str(e), "url": url}`; on
success, the cleaned, truncated page summary payload. -/
def fetch_url_content (url : String) (outcome : FetchOutcome) : Json :=
  match outcome with
  | .failure e => .obj [("error", .str e), ("url", .str url)]
  | .success pd =>
    let cleaned := cleanJoin [' '] pd.text
    .obj [("url", .str url),
      ("title",
        match pd.titleTag with
        | none => .str "No title"
        | some s => jsonOfPyOptStr s),
      ("meta_description",
        match pd.metaDescContent with
        | none => .str "No description"
        | some s => jsonOfPyOptStr s),
      ("content", .str (String.mk (cleaned.toList.take 2000))),
      ("content_length", .num cleaned.length)]

/-- The `fetch_page_content` agent tool of `PageFetcherService`: on any
exception, the error string `"Error fetching page: " + str(e)`; on
success, the newline-joined cleaned text. -/
def fetch_page_content (url : String) (outcome : FetchOutcome) : String :=
  match outcome with
  | .failure e => "Error fetching page: " ++ e
  | .success pd => cleanJoin ['\n'] pd.text

/-- A payload is error-shaped when it is a JSON object carrying an
`"error"` key. -/
def isErrorShaped : Json → Bool
  | .obj fs => fs.any (fun f => f.1 = "error")
  | _ => false

/-! ## Helper lemmas -/

/-- A text in which no line of the trimmed input qualifies as a
recommendation item for the given bullet literal. -/
def noQualifyingLines (bullet : List Char) (text : String) : Prop :=
  ∀ line ∈ pySplitOn '\n' (pyStrip text.toList),
    isRecLine bullet (pyStrip line) = false

instance (bullet : List Char) (text : String) :
    Decidable (noQualifyingLines bullet text) := by
  unfold noQualifyingLines; infer_instance

theorem recItems_eq_nil {bullet stripSet : List Char}
    {lines : List (List Char)}
    (h : ∀ l ∈ lines, isRecLine bullet (pyStrip l) = false) :
    recItems bullet stripSet lines = [] := by
  unfold recItems
  rw [List.filterMap_eq_nil_iff]
  intro l hl
  simp only [h l hl, if_false, Bool.false_eq_true]

theorem parseRecsWith_ne_nil (bullet stripSet : List Char) (text : String) :
    parseRecsWith bullet stripSet text ≠ [] := by
  simp only [parseRecsWith]
  by_cases h : recItems bullet stripSet (pySplitOn '\n' (pyStrip text.toList)) = []
  · rw [h, List.isEmpty_nil, if_pos rfl]
    exact List.cons_ne_nil text []
  · have h2 : (recItems bullet stripSet
        (pySplitOn '\n' (pyStrip text.toList))).isEmpty = false := by
      simpa [List.isEmpty_iff] using h
    rw [h2, if_neg (by simp)]
    exact fun hc => h (List.map_eq_nil_iff.mp hc)

/-- `url` occurs case-insensitively inside `c` (the substring test the
source applies to candidate links). -/
def urlInside (url c : String) : Bool :=
  decide (pyLower url.toList <:+: pyLower c.toList)

theorem linkMatches_eq_urlInside (url : String) (r : OrganicResult) :
    linkMatches url r = urlInside url (entryLink r) := rfl

theorem findRankFrom_eq_none (url : String) :
    ∀ (l : List OrganicResult) (i : Nat),
      findRankFrom url i l = none ↔ ∀ r ∈ l, linkMatches url r = false := by
  intro l
  induction l with
  | nil => intro i; simp [findRankFrom]
  | cons r rs ih =>
    intro i
    unfold findRankFrom
    by_cases h : linkMatches url r = true
    · simp [h]
    · simp [h, ih (i + 1)]

theorem findRankFrom_eq_some (url : String) :
    ∀ (l : List OrganicResult) (i k : Nat),
      findRankFrom url i l = some k →
      ∃ j, k = i + j ∧ ∃ hj : j < l.length,
        linkMatches url (l.get ⟨j, hj⟩) = true ∧
        ∀ j', (hj' : j' < l.length) → j' < j →
          linkMatches url (l.get ⟨j', hj'⟩) = false := by
  intro l
  induction l with
  | nil => intro i k h; simp [findRankFrom] at h
  | cons r rs ih =>
    intro i k h
    unfold findRankFrom at h
    by_cases hm : linkMatches url r = true
    · rw [if_pos hm] at h
      obtain rfl : i = k := by injection h
      refine ⟨0, by omega, by simp, by simpa using hm, ?_⟩
      intro j' hj' hlt
      omega
    · rw [if_neg hm] at h
      obtain ⟨j, rfl, hj, hmatch, hfirst⟩ := ih (i + 1) k h
      refine ⟨j + 1, by omega, by simpa using Nat.succ_lt_succ hj, ?_, ?_⟩
      · simpa using hmatch
      · intro j' hj' hlt
        cases j' with
        | zero => simpa using hm
        | succ jj =>
          have hjj : jj < rs.length := by simpa using hj'
          simpa using hfirst jj hjj (by omega)

theorem dictLookup_insert_self (d : List (String × Option Nat)) (k : String)
    (v : Option Nat) : dictLookup (dictInsert d k v) k = some v := by
  induction d with
  | nil => simp [dictInsert, dictLookup]
  | cons p rest ih =>
    obtain ⟨k', v'⟩ := p
    by_cases h : k' = k
    · subst h; simp [dictInsert, dictLookup]
    · simp [dictInsert, dictLookup, h, ih]

theorem dictLookup_insert_ne (d : List (String × Option Nat)) (k : String)
    (v : Option Nat) (k' : String) (h : k ≠ k') :
    dictLookup (dictInsert d k v) k' = dictLookup d k' := by
  induction d with
  | nil => simp [dictInsert, dictLookup, h]
  | cons p rest ih =>
    obtain ⟨k'', v''⟩ := p
    by_cases h2 : k'' = k
    · subst h2
      simp [dictInsert, dictLookup, h, fun hh : k'' = k' => h hh]
    · simp [dictInsert, dictLookup, h2, ih]

theorem analyzeLoop_lookup_pres (search : String → Except String SearchResults)
    (url kw : String) :
    ∀ (kws : List String) (st st' : LoopState),
      analyzeLoop search url kws st = .ok st' → kw ∉ kws →
      dictLookup st'.rankings kw = dictLookup st.rankings kw := by
  intro kws
  induction kws with
  | nil =>
    intro st st' h _
    simp only [analyzeLoop] at h
    cases h
    rfl
  | cons kw0 rest ih =>
    intro st st' h hnot
    simp only [analyzeLoop] at h
    cases hs : search kw0 with
    | error e => rw [hs] at h; cases h
    | ok res =>
      rw [hs] at h
      have h1 : kw ≠ kw0 := fun hh => hnot (hh ▸ List.mem_cons_self kw0 rest)
      have h2 : kw ∉ rest := fun hh => hnot (List.mem_cons_of_mem kw0 hh)
      rw [ih _ _ h h2]
      exact dictLookup_insert_ne _ _ _ _ (fun hh => h1 hh.symm)

theorem analyzeLoop_lookup (search : String → Except String SearchResults)
    (url : String) :
    ∀ (kws : List String) (st st' : LoopState),
      analyzeLoop search url kws st = .ok st' → ∀ kw ∈ kws, ∃ res,
      search kw = .ok res ∧
      dictLookup st'.rankings kw = some (rankOf url res.organic_results) := by
  intro kws
  induction kws with
  | nil => intro st st' _ kw hkw; cases hkw
  | cons kw0 rest ih =>
    intro st st' h kw hkw
    simp only [analyzeLoop] at h
    cases hs : search kw0 with
    | error e => rw [hs] at h; cases h
    | ok res =>
      rw [hs] at h
      by_cases hmem : kw ∈ rest
      · exact ih _ _ h kw hmem
      · have hkw0 : kw = kw0 := by
          rcases List.mem_cons.mp hkw with h1 | h1
          · exact h1
          · exact absurd h1 hmem
        subst hkw0
        refine ⟨res, hs, ?_⟩
        rw [analyzeLoop_lookup_pres search url kw _ _ _ h hmem]
        exact dictLookup_insert_self _ _ _

theorem analyzeLoop_last (search : String → Except String SearchResults)
    (url : String) :
    ∀ (kws : List String) (st st' : LoopState),
      analyzeLoop search url kws st = .ok st' → kws ≠ [] →
      ∃ klast res, kws.getLast? = some klast ∧ search klast = .ok res ∧
        st'.lastResults = some res := by
  intro kws
  induction kws with
  | nil => intro st st' _ hne; exact absurd rfl hne
  | cons kw0 rest ih =>
    intro st st' h _
    simp only [analyzeLoop] at h
    cases hs : search kw0 with
    | error e => rw [hs] at h; cases h
    | ok res =>
      rw [hs] at h
      have h' : analyzeLoop search url rest (analyzeStep url st kw0 res) = .ok st' := h
      cases hr : rest with
      | nil =>
        subst hr
        simp only [analyzeLoop] at h'
        cases h'
        exact ⟨kw0, res, rfl, hs, rfl⟩
      | cons r1 r2 =>
        subst hr
        obtain ⟨klast, res', h1, h2, h3⟩ := ih _ _ h' (by simp)
        exact ⟨klast, res', by rw [List.getLast?_cons_cons]; exact h1, h2, h3⟩

theorem analyzeLoop_nil_state (search : String → Except String SearchResults)
    (url : String) (st st' : LoopState)
    (h : analyzeLoop search url [] st = .ok st') : st' = st := by
  simp only [analyzeLoop] at h
  cases h
  rfl

theorem mem_updateComps (url : String) (comps : List String) (r : OrganicResult)
    (c : String) :
    (c ∈ if (!(entryLink r).isEmpty && !linkMatches url r) = true
          then if comps.contains (entryLink r) = true then comps
               else comps ++ [entryLink r]
          else comps) ↔
      (c ∈ comps ∨ (entryLink r = c ∧ c.isEmpty = false ∧
        linkMatches url r = false)) := by
  by_cases hu : (entryLink r).isEmpty = true
  · rw [if_neg (by simp [hu])]
    constructor
    · exact Or.inl
    · rintro (h | ⟨h1, h2, h3⟩)
      · exact h
      · rw [← h1, hu] at h2; exact absurd h2 (by decide)
  · by_cases hm : linkMatches url r = true
    · rw [if_neg (by simp [hm])]
      constructor
      · exact Or.inl
      · rintro (h | ⟨h1, h2, h3⟩)
        · exact h
        · rw [hm] at h3; exact absurd h3 (by decide)
    · rw [if_pos (by simp [hu, hm])]
      by_cases hin : comps.contains (entryLink r) = true
      · rw [if_pos hin]
        constructor
        · exact Or.inl
        · rintro (h | ⟨h1, h2, h3⟩)
          · exact h
          · rw [← h1]; simpa using hin
      · rw [if_neg hin, List.mem_append]
        constructor
        · rintro (h | h)
          · exact Or.inl h
          · have hc : c = entryLink r := by simpa using h
            subst hc
            exact Or.inr ⟨rfl, by simpa using hu, by simpa using hm⟩
        · rintro (h | ⟨h1, h2, h3⟩)
          · exact Or.inl h
          · exact Or.inr (by simp [h1])

theorem mem_addCompetitors (url : String) :
    ∀ (rs : List OrganicResult) (comps : List String) (c : String),
      c ∈ addCompetitors url comps rs ↔
        c ∈ comps ∨ ∃ r ∈ rs, entryLink r = c ∧ c.isEmpty = false ∧
          linkMatches url r = false := by
  intro rs
  induction rs with
  | nil => intro comps c; simp [addCompetitors]
  | cons r rest ih =>
    intro comps c
    simp only [addCompetitors]
    rw [ih, mem_updateComps]
    constructor
    · rintro ((h | ⟨h1, h2, h3⟩) | ⟨r', hr', hh⟩)
      · exact Or.inl h
      · exact Or.inr ⟨r, List.mem_cons_self r rest, h1, h2, h3⟩
      · exact Or.inr ⟨r', List.mem_cons_of_mem r hr', hh⟩
    · rintro (h | ⟨r', hr', hh⟩)
      · exact Or.inl (Or.inl h)
      · rcases List.mem_cons.mp hr' with rfl | hmem
        · exact Or.inl (Or.inr hh)
        · exact Or.inr ⟨r', hmem, hh⟩

theorem nodup_addCompetitors (url : String) :
    ∀ (rs : List OrganicResult) (comps : List String),
      comps.Nodup → (addCompetitors url comps rs).Nodup := by
  intro rs
  induction rs with
  | nil => intro comps h; exact h
  | cons r rest ih =>
    intro comps h
    unfold addCompetitors
    apply ih
    by_cases hcond : (!(entryLink r).isEmpty && !linkMatches url r) = true
    · rw [if_pos hcond]
      by_cases hin : comps.contains (entryLink r)
      · rw [if_pos hin]; exact h
      · rw [if_neg hin]
        have : entryLink r ∉ comps := by simpa using hin
        simp [List.nodup_append, h, this]
    · rw [if_neg hcond]; exact h

theorem analyzeLoop_competitors (search : String → Except String SearchResults)
    (url : String) :
    ∀ (kws : List String) (st st' : LoopState),
      analyzeLoop search url kws st = .ok st' →
      (st.competitors.Nodup → st'.competitors.Nodup) ∧
      ∀ c ∈ st'.competitors, c ∈ st.competitors ∨
        ∃ kw ∈ kws, ∃ res, search kw = .ok res ∧
          ∃ r ∈ res.organic_results.take 5, entryLink r = c ∧
            c.isEmpty = false ∧ linkMatches url r = false := by
  intro kws
  induction kws with
  | nil =>
    intro st st' h
    have := analyzeLoop_nil_state search url st st' h
    subst this
    exact ⟨id, fun c hc => Or.inl hc⟩
  | cons kw0 rest ih =>
    intro st st' h
    simp only [analyzeLoop] at h
    cases hs : search kw0 with
    | error e => rw [hs] at h; cases h
    | ok res =>
      rw [hs] at h
      have h' : analyzeLoop search url rest (analyzeStep url st kw0 res) = .ok st' := h
      obtain ⟨hnd, hmem⟩ := ih _ _ h'
      constructor
      · intro hst
        exact hnd (nodup_addCompetitors url _ _ hst)
      · intro c hc
        rcases hmem c hc with hc2 | ⟨kw, hkw, res', hres', r, hr, h1, h2, h3⟩
        · rcases (mem_addCompetitors url _ _ c).mp hc2 with hc3 | ⟨r, hr, h1, h2, h3⟩
          · exact Or.inl hc3
          · exact Or.inr ⟨kw0, List.mem_cons_self kw0 rest, res, hs, r, hr, h1, h2, h3⟩
        · exact Or.inr ⟨kw, List.mem_cons_of_mem kw0 hkw, res', hres', r, hr, h1, h2, h3⟩

theorem analyzeLoop_error_shape (search : String → Except String SearchResults)
    (url : String) :
    ∀ (kws : List String) (st : LoopState) (e : AnalyzeError),
      analyzeLoop search url kws st = .error e →
      ∃ msg, e = .searchFailure msg := by
  intro kws
  induction kws with
  | nil => intro st e h; simp only [analyzeLoop] at h; cases h
  | cons kw0 rest ih =>
    intro st e h
    simp only [analyzeLoop] at h
    cases hs : search kw0 with
    | error m => rw [hs] at h; cases h; exact ⟨m, rfl⟩
    | ok res =>
      rw [hs] at h
      exact ih _ _ h

theorem analyze_rankings_ok_elim (search : String → Except String SearchResults)
    (url : String) (kws : List String) (d : AnalysisData)
    (h : analyze_rankings search url kws = .ok d) :
    ∃ st' res, analyzeLoop search url kws ⟨[], [], none⟩ = .ok st' ∧
      st'.lastResults = some res ∧
      d = ⟨st'.rankings, st'.competitors.take 10, res⟩ := by
  unfold analyze_rankings at h
  cases hl : analyzeLoop search url kws ⟨[], [], none⟩ with
  | error e => rw [hl] at h; cases h
  | ok st' =>
    rw [hl] at h
    have h' : (match st'.lastResults with
      | none => (.error .unboundResults : Except AnalyzeError AnalysisData)
      | some res => .ok ⟨st'.rankings, st'.competitors.take 10, res⟩) = .ok d := h
    cases hr : st'.lastResults with
    | none => rw [hr] at h'; cases h'
    | some res =>
      rw [hr] at h'
      cases h'
      exact ⟨st', res, rfl, hr, rfl⟩

/-! ## Theorems for the claims -/

/-- C3: for every keyword processed by `analyze_rankings`, the rankings
entry of that keyword is the 1-based index of the first entry among the
first 20 organic results whose link contains the target URL as a
case-insensitive substring, and it is null (`none`, not 0 and not -1 —
the rank is an `Option Nat`) exactly when no entry of the first 20
matches. -/
theorem analyze_rankings_rank_policy
    (search : String → Except String SearchResults) (url : String)
    (kws : List String) (d : AnalysisData) (kw : String) (res : SearchResults)
    (hok : analyze_rankings search url kws = .ok d)
    (hkw : kw ∈ kws) (hres : search kw = .ok res) :
    dictLookup d.rankings kw = some (rankOf url res.organic_results)
    ∧ (rankOf url res.organic_results = none ↔
        ∀ r ∈ res.organic_results.take 20, linkMatches url r = false)
    ∧ ∀ k, rankOf url res.organic_results = some k →
        1 ≤ k ∧ ∃ hk : k - 1 < (res.organic_results.take 20).length,
          linkMatches url ((res.organic_results.take 20).get ⟨k - 1, hk⟩) = true ∧
          ∀ j, (hj : j < (res.organic_results.take 20).length) → j < k - 1 →
            linkMatches url ((res.organic_results.take 20).get ⟨j, hj⟩) = false := by
  obtain ⟨st', res0, hl, hlast, rfl⟩ := analyze_rankings_ok_elim search url kws d hok
  refine ⟨?_, ?_, ?_⟩
  · obtain ⟨res', hres', hlook⟩ := analyzeLoop_lookup search url kws _ _ hl kw hkw
    rw [hres] at hres'
    obtain rfl := Except.ok.inj hres'
    exact hlook
  · exact findRankFrom_eq_none url _ 1
  · intro k hk
    obtain ⟨j, hkj, hj, hmatch, hfirst⟩ := findRankFrom_eq_some url _ 1 k hk
    refine ⟨by omega, ?_⟩
    have hkj' : k - 1 = j := by omega
    simp only [hkj']
    exact ⟨hj, hmatch, fun j' hj' hlt => hfirst j' hj' hlt⟩

/-- Witness for C3: a concrete oracle placing the target at position 3
of the organic results for the keyword "widgets". -/
theorem analyze_rankings_rank_policy_witness :
    analyze_rankings exampleSearch "example.com" ["widgets"] =
      .ok ⟨[("widgets", some 3)], ["https://a.com/x", "https://b.com/y"],
        ⟨exampleOrganic⟩⟩
    ∧ dictLookup [("widgets", some 3)] "widgets" =
        some (rankOf "example.com" exampleOrganic) := by
  refine ⟨by decide, ?_⟩
  exact (analyze_rankings_rank_policy exampleSearch "example.com" ["widgets"]
    ⟨[("widgets", some 3)], ["https://a.com/x", "https://b.com/y"],
      ⟨exampleOrganic⟩⟩ "widgets" ⟨exampleOrganic⟩
    (by decide) (by decide) (by decide)).1

/-- C4: the competitors sequence returned by `analyze_rankings` has no
duplicate entries, has at most 10 entries, contains no URL that
case-insensitively contains the target URL as a substring, and every
entry is the link of one of the first 5 organic results of some
keyword's search. -/
theorem analyze_rankings_competitor_policy
    (search : String → Except String SearchResults) (url : String)
    (kws : List String) (d : AnalysisData)
    (hok : analyze_rankings search url kws = .ok d) :
    d.competitors.Nodup ∧ d.competitors.length ≤ 10 ∧
    ∀ c ∈ d.competitors, urlInside url c = false ∧
      ∃ kw ∈ kws, ∃ res, search kw = .ok res ∧
        ∃ r ∈ res.organic_results.take 5, entryLink r = c := by
  obtain ⟨st', res0, hl, hlast, rfl⟩ := analyze_rankings_ok_elim search url kws d hok
  obtain ⟨hnd, hmem⟩ := analyzeLoop_competitors search url kws _ _ hl
  have hnodup : st'.competitors.Nodup := hnd (by simp)
  refine ⟨hnodup.sublist (List.take_sublist 10 _), List.length_take_le 10 _, ?_⟩
  intro c hc
  have hc' : c ∈ st'.competitors := List.mem_of_mem_take hc
  rcases hmem c hc' with h0 | ⟨kw, hkw, res, hres, r, hr, h1, h2, h3⟩
  · cases h0
  · refine ⟨?_, kw, hkw, res, hres, r, hr, h1⟩
    rw [← h1, ← linkMatches_eq_urlInside]
    exact h3

/-- Witness for C4 at the same concrete oracle. -/
theorem analyze_rankings_competitor_policy_witness :
    analyze_rankings exampleSearch "example.com" ["widgets"] =
      .ok ⟨[("widgets", some 3)], ["https://a.com/x", "https://b.com/y"],
        ⟨exampleOrganic⟩⟩
    ∧ (["https://a.com/x", "https://b.com/y"] : List String).Nodup := by
  refine ⟨by decide, ?_⟩
  exact (analyze_rankings_competitor_policy exampleSearch "example.com" ["widgets"]
    ⟨[("widgets", some 3)], ["https://a.com/x", "https://b.com/y"],
      ⟨exampleOrganic⟩⟩ (by decide)).1

/-- C10: `analyze_rankings` on the empty keyword list fails with the
unbound-variable (`NameError`) branch rather than returning empty
rankings; on any non-empty keyword list its `search_results` field is
exactly the raw payload of the last keyword's search, and the
unbound-variable branch is unreachable — so the keywords-non-empty
precondition of request validation is exactly what keeps that branch
unreachable. -/
theorem analyze_rankings_empty_keywords
    (search : String → Except String SearchResults) (url : String)
    (kws : List String) :
    analyze_rankings search url ([] : List String) = .error .unboundResults
    ∧ (kws ≠ [] → ∀ d, analyze_rankings search url kws = .ok d →
        ∃ klast res, kws.getLast? = some klast ∧ search klast = .ok res ∧
          d.search_results = res)
    ∧ (kws ≠ [] → analyze_rankings search url kws ≠ .error .unboundResults) := by
  refine ⟨rfl, ?_, ?_⟩
  · intro hne d hok
    obtain ⟨st', res0, hl, hlast, rfl⟩ :=
      analyze_rankings_ok_elim search url kws d hok
    obtain ⟨klast, res, h1, h2, h3⟩ := analyzeLoop_last search url kws _ _ hl hne
    rw [hlast] at h3
    obtain rfl := Option.some.inj h3
    exact ⟨klast, res0, h1, h2, rfl⟩
  · intro hne hcontra
    unfold analyze_rankings at hcontra
    cases hl : analyzeLoop search url kws ⟨[], [], none⟩ with
    | error e =>
      rw [hl] at hcontra
      obtain ⟨msg, rfl⟩ := analyzeLoop_error_shape search url kws _ e hl
      have hcontra' : (.error (.searchFailure msg) :
          Except AnalyzeError AnalysisData) = .error .unboundResults := hcontra
      exact AnalyzeError.noConfusion (Except.error.inj hcontra')
    | ok st' =>
      rw [hl] at hcontra
      obtain ⟨klast, res, _, _, h3⟩ := analyzeLoop_last search url kws _ _ hl hne
      have hcontra' : (match st'.lastResults with
        | none => (.error .unboundResults : Except AnalyzeError AnalysisData)
        | some res => .ok ⟨st'.rankings, st'.competitors.take 10, res⟩) =
          .error .unboundResults := hcontra
      rw [h3] at hcontra'
      exact Except.noConfusion hcontra'

/-- C1: for every request with 1-10 valid keywords, the event sequence
of one pipeline run — `investigate` or `optimize`, whatever the step
outcomes — contains exactly one terminal event (`completed` or
`failed`), and that terminal event is the last event: nothing is
emitted after it. -/
theorem pipeline_single_terminal_event (env : RunEnv) (url : String)
    (kws : List String) (loc : String)
    (hlo : 1 ≤ kws.length) (hhi : kws.length ≤ 10) :
    ((investigate env url kws loc).countP Event.isTerminal = 1
      ∧ ∃ e, (investigate env url kws loc).getLast? = some e ∧
          e.isTerminal = true)
    ∧ ((optimize env url kws loc).countP Event.isTerminal = 1
      ∧ ∃ e, (optimize env url kws loc).getLast? = some e ∧
          e.isTerminal = true) := by
  rcases env with ⟨search, sleepR, investR, analysisR, optR, tid, ca, cb⟩
  constructor
  · cases sleepR with
    | error e => simp [investigate, Event.isTerminal, failedEvent]
    | ok u =>
      cases hA : analyze_rankings search url kws with
      | error e => simp [investigate, hA, Event.isTerminal, failedEvent]
      | ok ad =>
        cases investR with
        | error e => simp [investigate, hA, Event.isTerminal, failedEvent]
        | ok iv =>
          cases analysisR with
          | error e => simp [investigate, hA, Event.isTerminal, failedEvent]
          | ok an =>
            cases optR with
            | error e => simp [investigate, hA, Event.isTerminal, failedEvent]
            | ok op => simp [investigate, hA, Event.isTerminal, failedEvent]
  · cases sleepR with
    | error e => simp [optimize, Event.isTerminal, failedEvent]
    | ok u =>
      cases hA : analyze_rankings search url kws with
      | error e => simp [optimize, hA, Event.isTerminal, failedEvent]
      | ok ad =>
        cases analysisR with
        | error e => simp [optimize, hA, Event.isTerminal, failedEvent]
        | ok an =>
          cases optR with
          | error e => simp [optimize, hA, Event.isTerminal, failedEvent]
          | ok op => simp [optimize, hA, Event.isTerminal, failedEvent]

/-- Witness for C1 at a concrete all-success environment and a
one-keyword request. -/
theorem pipeline_single_terminal_event_witness :
    (1 : Nat) ≤ (["widgets"] : List String).length
    ∧ (investigate
        ⟨exampleSearch, .ok (), .ok "iv", .ok "an", .ok "op", "tid", "t0", "t1"⟩
        "example.com" ["widgets"] "Austin, TX").countP Event.isTerminal = 1 := by
  refine ⟨by decide, ?_⟩
  exact (pipeline_single_terminal_event
    ⟨exampleSearch, .ok (), .ok "iv", .ok "an", .ok "op", "tid", "t0", "t1"⟩
    "example.com" ["widgets"] "Austin, TX" (by decide) (by decide)).1.1

theorem strContains_append_right (p s : String) :
    strContains (p ++ s) s = true := by
  simp only [strContains, decide_eq_true_eq, String.toList]
  rw [String.data_append]
  exact (List.suffix_append p.data s.data).isInfix

/-- C2: within a single run of either pipeline, the progress values of
the non-terminal events form a non-decreasing sequence, and the
terminal event carries progress 100 when its status is `completed` and
progress 0 (the reference value) when its status is `failed`. -/
theorem pipeline_progress_monotone (env : RunEnv) (url : String)
    (kws : List String) (loc : String) :
    (List.Chain' (· ≤ ·)
        (((investigate env url kws loc).filter (fun e => !e.isTerminal)).map
          Event.progress)
      ∧ ∃ e, (investigate env url kws loc).getLast? = some e ∧
          ((e.status = Status.completed ∧ e.progress = 100) ∨
            (e.status = Status.failed ∧ e.progress = 0)))
    ∧ (List.Chain' (· ≤ ·)
        (((optimize env url kws loc).filter (fun e => !e.isTerminal)).map
          Event.progress)
      ∧ ∃ e, (optimize env url kws loc).getLast? = some e ∧
          ((e.status = Status.completed ∧ e.progress = 100) ∨
            (e.status = Status.failed ∧ e.progress = 0))) := by
  rcases env with ⟨search, sleepR, investR, analysisR, optR, tid, ca, cb⟩
  constructor
  · cases sleepR with
    | error e => simp [investigate, Event.isTerminal, failedEvent]
    | ok u =>
      cases hA : analyze_rankings search url kws with
      | error e => simp [investigate, hA, Event.isTerminal, failedEvent]
      | ok ad =>
        cases investR with
        | error e => simp [investigate, hA, Event.isTerminal, failedEvent]
        | ok iv =>
          cases analysisR with
          | error e => simp [investigate, hA, Event.isTerminal, failedEvent]
          | ok an =>
            cases optR with
            | error e => simp [investigate, hA, Event.isTerminal, failedEvent]
            | ok op => simp [investigate, hA, Event.isTerminal, failedEvent]
  · cases sleepR with
    | error e => simp [optimize, Event.isTerminal, failedEvent]
    | ok u =>
      cases hA : analyze_rankings search url kws with
      | error e => simp [optimize, hA, Event.isTerminal, failedEvent]
      | ok ad =>
        cases analysisR with
        | error e => simp [optimize, hA, Event.isTerminal, failedEvent]
        | ok an =>
          cases optR with
          | error e => simp [optimize, hA, Event.isTerminal, failedEvent]
          | ok op => simp [optimize, hA, Event.isTerminal, failedEvent]

/-- C5: when some pipeline step fails, the run of either pipeline ends
with exactly one terminal event, which is the `failed` event built from
the first failing step: its progress is 0, its message is the failure
description prefixed by "Optimization failed: " (so the message
contains the description), no `completed` event is ever emitted, and
nothing follows the `failed` event (it is the last). -/
theorem pipeline_failure_terminal (env : RunEnv) (url : String)
    (kws : List String) (loc : String) (d : String) :
    (firstFailureInv env url kws = some d →
      (investigate env url kws loc).getLast? =
          some ⟨.failed, "Optimization failed: " ++ d, 0, none⟩
      ∧ (investigate env url kws loc).countP Event.isTerminal = 1
      ∧ (investigate env url kws loc).countP
          (fun e => e.status = Status.completed) = 0
      ∧ strContains ("Optimization failed: " ++ d) d = true)
    ∧ (firstFailureOpt env url kws = some d →
      (optimize env url kws loc).getLast? =
          some ⟨.failed, "Optimization failed: " ++ d, 0, none⟩
      ∧ (optimize env url kws loc).countP Event.isTerminal = 1
      ∧ (optimize env url kws loc).countP
          (fun e => e.status = Status.completed) = 0
      ∧ strContains ("Optimization failed: " ++ d) d = true) := by
  rcases env with ⟨search, sleepR, investR, analysisR, optR, tid, ca, cb⟩
  constructor
  · intro hf
    cases sleepR with
    | error e =>
      obtain rfl : e = d := by simpa [firstFailureInv] using hf
      refine ⟨?_, ?_, ?_, strContains_append_right _ _⟩ <;>
        simp [investigate, Event.isTerminal, failedEvent]
    | ok u =>
      cases hA : analyze_rankings search url kws with
      | error e =>
        obtain rfl : e.toMessage = d := by simpa [firstFailureInv, hA] using hf
        refine ⟨?_, ?_, ?_, strContains_append_right _ _⟩ <;>
          simp [investigate, hA, Event.isTerminal, failedEvent]
      | ok ad =>
        cases investR with
        | error e =>
          obtain rfl : e = d := by simpa [firstFailureInv, hA] using hf
          refine ⟨?_, ?_, ?_, strContains_append_right _ _⟩ <;>
            simp [investigate, hA, Event.isTerminal, failedEvent]
        | ok iv =>
          cases analysisR with
          | error e =>
            obtain rfl : e = d := by simpa [firstFailureInv, hA] using hf
            refine ⟨?_, ?_, ?_, strContains_append_right _ _⟩ <;>
              simp [investigate, hA, Event.isTerminal, failedEvent]
          | ok an =>
            cases optR with
            | error e =>
              obtain rfl : e = d := by simpa [firstFailureInv, hA] using hf
              refine ⟨?_, ?_, ?_, strContains_append_right _ _⟩ <;>
                simp [investigate, hA, Event.isTerminal, failedEvent]
            | ok op => simp [firstFailureInv, hA] at hf
  · intro hf
    cases sleepR with
    | error e =>
      obtain rfl : e = d := by simpa [firstFailureOpt] using hf
      refine ⟨?_, ?_, ?_, strContains_append_right _ _⟩ <;>
        simp [optimize, Event.isTerminal, failedEvent]
    | ok u =>
      cases hA : analyze_rankings search url kws with
      | error e =>
        obtain rfl : e.toMessage = d := by simpa [firstFailureOpt, hA] using hf
        refine ⟨?_, ?_, ?_, strContains_append_right _ _⟩ <;>
          simp [optimize, hA, Event.isTerminal, failedEvent]
      | ok ad =>
        cases analysisR with
        | error e =>
          obtain rfl : e = d := by simpa [firstFailureOpt, hA] using hf
          refine ⟨?_, ?_, ?_, strContains_append_right _ _⟩ <;>
            simp [optimize, hA, Event.isTerminal, failedEvent]
        | ok an =>
          cases optR with
          | error e =>
            obtain rfl : e = d := by simpa [firstFailureOpt, hA] using hf
            refine ⟨?_, ?_, ?_, strContains_append_right _ _⟩ <;>
              simp [optimize, hA, Event.isTerminal, failedEvent]
          | ok op => simp [firstFailureOpt, hA] at hf

/-- Witness for C5 at a concrete environment whose analysis-agent step
fails with description "boom". -/
theorem pipeline_failure_terminal_witness :
    firstFailureInv
        ⟨exampleSearch, .ok (), .ok "iv", .error "boom", .ok "op", "tid",
          "t0", "t1"⟩ "example.com" ["widgets"] = some "boom"
    ∧ (investigate
        ⟨exampleSearch, .ok (), .ok "iv", .error "boom", .ok "op", "tid",
          "t0", "t1"⟩ "example.com" ["widgets"] "Austin, TX").getLast? =
        some ⟨.failed, "Optimization failed: " ++ "boom", 0, none⟩ := by
  refine ⟨by decide, ?_⟩
  exact (pipeline_failure_terminal
    ⟨exampleSearch, .ok (), .ok "iv", .error "boom", .ok "op", "tid", "t0", "t1"⟩
    "example.com" ["widgets"] "Austin, TX" "boom" |>.1 (by decide)).1

/-- Witness for C10: the error branch at the empty list and the
search-results field at a concrete non-empty list. -/
theorem analyze_rankings_empty_keywords_witness :
    analyze_rankings exampleSearch "example.com" [] = .error .unboundResults
    ∧ analyze_rankings exampleSearch "example.com" ["widgets"] ≠
        .error .unboundResults := by
  have h := analyze_rankings_empty_keywords exampleSearch "example.com" ["widgets"]
  exact ⟨h.1, h.2.2 (by decide)⟩

/-- C6 (code bug): a trimmed non-empty line should be recognized as a
recommendation item iff it starts with a digit, a dash or the bullet
character U+2022, and the example input should parse to the two cleaned
items in both service variants.  The optimization variant behaves as
claimed, but the investigation variant's source holds the mojibake
sequence "â€¢" in place of the bullet, so a line starting with the
bullet character is not recognized there: the parser falls back to
returning the whole text. -/
theorem parser_bullet_recognition_divergence :
    parse_recommendations_opt "1. Improve title tags\n2. Add schema markup\n" =
      ["Improve title tags", "Add schema markup"]
    ∧ parse_recommendations_inv "1. Improve title tags\n2. Add schema markup\n" =
      ["Improve title tags", "Add schema markup"]
    ∧ parse_recommendations_opt "• Improve alt text" = ["Improve alt text"]
    ∧ parse_recommendations_inv "• Improve alt text" = ["• Improve alt text"]
    ∧ parse_recommendations_inv "â€¢ Improve alt text" = ["Improve alt text"] := by
  decide

/-- C9 (code bug): a recognized line should lose every leading
character drawn from digits, `.`, `-`, the bullet character, `)` and
space (so "1. 301 redirects" parses to "redirects"), and a recognized
line that becomes empty after stripping is dropped.  This holds in the
optimization variant; in the investigation variant the `lstrip`
character set holds the three mojibake characters instead of the
bullet, so a bullet following the enumerator is not stripped. -/
theorem parser_lstrip_divergence :
    parse_recommendations_inv "1. 301 redirects" = ["redirects"]
    ∧ parse_recommendations_opt "1. 301 redirects" = ["redirects"]
    ∧ parse_recommendations_inv "1.\n2. Keep" = ["Keep"]
    ∧ parse_recommendations_opt "1.\n2. Keep" = ["Keep"]
    ∧ parse_recommendations_opt "1) • alt text" = ["alt text"]
    ∧ parse_recommendations_inv "1) • alt text" = ["• alt text"] := by
  decide

/-- C7 (counterexample): on the input " hello " no line qualifies, and
both parser variants return the original text with its surrounding
whitespace intact — not the trimmed original text the claim states. -/
theorem parser_fallback_not_trimmed_cex :
    parse_recommendations_inv " hello " = [" hello "]
    ∧ parse_recommendations_opt " hello " = [" hello "]
    ∧ String.mk (pyStrip " hello ".toList) = "hello"
    ∧ parse_recommendations_inv " hello " ≠ [String.mk (pyStrip " hello ".toList)]
    ∧ parse_recommendations_opt " hello " ≠ [String.mk (pyStrip " hello ".toList)] := by
  decide

/-- C7 (amended): for every input text in which zero lines qualify as
recommendation items, each parser variant returns the single-element
sequence holding the original text unmodified (not trimmed); neither
variant ever returns an empty sequence. -/
theorem parser_fallback_original_text (text : String) :
    (noQualifyingLines "â€¢".toList text →
      parse_recommendations_inv text = [text])
    ∧ parse_recommendations_inv text ≠ []
    ∧ (noQualifyingLines "•".toList text →
      parse_recommendations_opt text = [text])
    ∧ parse_recommendations_opt text ≠ [] := by
  refine ⟨?_, parseRecsWith_ne_nil _ _ _, ?_, parseRecsWith_ne_nil _ _ _⟩
  · intro h
    have hnil : recItems "â€¢".toList "0123456789.-â€¢) ".toList
        (pySplitOn '\n' (pyStrip text.toList)) = [] := recItems_eq_nil h
    simp only [parse_recommendations_inv, parseRecsWith, hnil, List.isEmpty_nil]
    rw [if_pos trivial]
  · intro h
    have hnil : recItems "•".toList "0123456789.-•) ".toList
        (pySplitOn '\n' (pyStrip text.toList)) = [] := recItems_eq_nil h
    simp only [parse_recommendations_opt, parseRecsWith, hnil, List.isEmpty_nil]
    rw [if_pos trivial]

/-- Witness for C7 at the concrete no-item input "plain text". -/
theorem parser_fallback_original_text_witness :
    parse_recommendations_inv "plain text" = ["plain text"]
    ∧ parse_recommendations_inv "plain text" ≠ []
    ∧ parse_recommendations_opt "plain text" = ["plain text"]
    ∧ parse_recommendations_opt "plain text" ≠ [] :=
  let h := parser_fallback_original_text "plain text"
  ⟨h.1 (by decide), h.2.1, h.2.2.1 (by decide), h.2.2.2⟩

/-- C8: for every URL and every failure of the underlying fetch, the
`fetch_url_content` tool returns the error payload
`{"error": str(e), "url": url}` (an error-shaped payload, not a raised
exception) and the `fetch_page_content` tool returns the error string
`"Error fetching page: " + str(e)`; both tools are total functions of
the fetch outcome, so no exception crosses the tool boundary. -/
theorem fetch_tools_error_payload (url excMsg : String) :
    fetch_url_content url (.failure excMsg) =
      .obj [("error", .str excMsg), ("url", .str url)]
    ∧ isErrorShaped (fetch_url_content url (.failure excMsg)) = true
    ∧ fetch_page_content url (.failure excMsg) = "Error fetching page: " ++ excMsg := by
  refine ⟨rfl, ?_, rfl⟩
  simp [fetch_url_content, isErrorShaped]

end AIOpt
